import Mathlib

/-!
# Verification of the Amazon search/product scraper (`src/main.py`)

Shallow embedding of the scraper's pure logic and an abstract model of its
interaction with the browser-automation environment.

Modelling conventions:
* Python values appearing in the raw Actor input are modelled by `PyVal`
  (`None`, `int`, `float`, `bool`, `str`, `list`).  Python floats are modelled
  as exact rationals (`Rat`); every numeric literal handled by the scraper is
  a short decimal, for which this is exact.
* Python `int(...)` / `float(...)` conversions are modelled as
  `Except`/`Option`-valued functions; a raised `ValueError`/`TypeError` is the
  `error`/`none` case.
* String manipulation is modelled character-exactly over `List Char`
  (ASCII case mapping; the scraper's fixed marker/keyword strings are ASCII).
* DOM access (Playwright locators) is modelled by data: an element carries the
  results of `text_content()` / `get_attribute(...)`; a locator is the list of
  matching elements.  A raised exception from any DOM call on a card is
  modelled by the card's `flaky` flag: the code's `except Exception` handler
  at the card boundary behaves identically no matter where the raise occurs,
  so the raise site is unobservable.
-/

/-- Python str.strip / str.split / int() etc. character predicates use
whitespace; modelled with `Char.isWhitespace` (covers the ASCII cases). -/
def isWs (c : Char) : Bool := c.isWhitespace

/-- ASCII lower-casing of one character (models Python `str.lower` on the
ASCII strings this program compares). -/
def pyLowerChar (c : Char) : Char :=
  if 'A' ≤ c ∧ c ≤ 'Z' then Char.ofNat (c.toNat + 32) else c

/-- ASCII upper-casing of one character (models Python `str.upper`). -/
def pyUpperChar (c : Char) : Char :=
  if 'a' ≤ c ∧ c ≤ 'z' then Char.ofNat (c.toNat - 32) else c

/-- Python `s.lower()`. -/
def pyLower (s : String) : String := String.mk (s.data.map pyLowerChar)

/-- Python `s.upper()`. -/
def pyUpper (s : String) : String := String.mk (s.data.map pyUpperChar)

/-- Python `s.strip()`: drop whitespace from both ends. -/
def pyStrip (s : String) : String :=
  String.mk (((s.data.dropWhile isWs).reverse.dropWhile isWs).reverse)

/-- Does the character list start with the given pattern?  (helper for
substring containment). -/
def leadsWith : List Char → List Char → Bool
  | [], _ => true
  | _ :: _, [] => false
  | a :: as, b :: bs => (a = b) && leadsWith as bs

/-- Does the character list contain the pattern as a contiguous run? -/
def containsSeq (p : List Char) : List Char → Bool
  | [] => leadsWith p []
  | c :: rest => leadsWith p (c :: rest) || containsSeq p rest

/-- Python `pat in s` (substring containment). -/
def str_contains (s pat : String) : Bool := containsSeq pat.data s.data

/-- Python `s.startswith(pat)`. -/
def py_startswith (s pat : String) : Bool := leadsWith pat.data s.data

/-- Helper for Python `s.split()`: split a character list on whitespace runs,
accumulating the current (reversed) token. -/
def splitWsAux : List Char → List Char → List (List Char)
  | acc, [] => if acc.isEmpty then [] else [acc.reverse]
  | acc, c :: rest =>
    if isWs c then
      if acc.isEmpty then splitWsAux [] rest
      else acc.reverse :: splitWsAux [] rest
    else splitWsAux (c :: acc) rest

/-- Python `s.split()` (no argument): whitespace-delimited tokens, never
producing empty tokens. -/
def pySplitWs (s : String) : List String := (splitWsAux [] s.data).map String.mk

/-- Python `s.replace(c, d)` for one-character needle and replacement. -/
def pyReplaceChar (s : String) (c d : Char) : String :=
  String.mk (s.data.map fun ch => if ch = c then d else ch)

/-- Python `s.replace(c, '')` for a one-character needle. -/
def pyDropChar (s : String) (c : Char) : String :=
  String.mk (s.data.filter fun ch => ch ≠ c)

/-- Numeric value of a digit run (most significant first). -/
def digitsVal (cs : List Char) : Nat :=
  cs.foldl (fun a c => a * 10 + c.toNat - 48) 0

/-- Python `float(s)` restricted to plain decimal notation
(optional sign, digits, at most one point) — the only shapes this scraper can
feed it (price/rating texts filtered to digits and separators).  Exponent,
`inf`/`nan` and underscore forms are not modelled. -/
def pyFloatOfString (s : String) : Option Rat :=
  let t := pyStrip s
  let (neg, body) : Bool × List Char :=
    match t.data with
    | '-' :: rest => (true, rest)
    | '+' :: rest => (false, rest)
    | cs => (false, cs)
  if (body.all fun ch => ch.isDigit || ch = '.') ∧ body.count '.' ≤ 1 ∧
      body.any Char.isDigit then
    let intPart := body.takeWhile (· ≠ '.')
    let fracPart := (body.dropWhile (· ≠ '.')).tail
    let mag : Rat :=
      mkRat (digitsVal intPart * 10 ^ fracPart.length + digitsVal fracPart)
        (10 ^ fracPart.length)
    some (if neg then -mag else mag)
  else none

/-- Python `int(s)` for a string: optional surrounding whitespace, optional
sign, then a non-empty digit run (underscore separators not modelled). -/
def pyIntOfString (s : String) : Option Int :=
  let t := pyStrip s
  match t.data with
  | '-' :: rest =>
    if rest ≠ [] ∧ rest.all Char.isDigit then some (-(digitsVal rest : Int)) else none
  | '+' :: rest =>
    if rest ≠ [] ∧ rest.all Char.isDigit then some ((digitsVal rest : Int)) else none
  | cs =>
    if cs ≠ [] ∧ cs.all Char.isDigit then some ((digitsVal cs : Int)) else none

/-- Python values that can appear in the raw Actor input mapping. -/
inductive PyVal
  | vNone
  | vInt (n : Int)
  | vFloat (q : Rat)
  | vBool (b : Bool)
  | vStr (s : String)
  | vList (xs : List PyVal)
deriving Repr, BEq

/-- Python truthiness (`bool(v)` / `v or d`). -/
def pyTruthy : PyVal → Bool
  | .vNone => false
  | .vInt n => n ≠ 0
  | .vFloat q => q ≠ 0
  | .vBool b => b
  | .vStr s => s ≠ ""
  | .vList xs => ¬xs.isEmpty

/-- Python `int(v)`: `error` models a raised `TypeError`/`ValueError`.
`int` truncates a float toward zero. -/
def pyIntVal : PyVal → Except Unit Int
  | .vInt n => .ok n
  | .vBool b => .ok (if b then 1 else 0)
  | .vFloat q => .ok (Int.tdiv q.num q.den)
  | .vStr s => match pyIntOfString s with
    | some n => .ok n
    | none => .error ()
  | _ => .error ()

/-- Python `float(v)` where the caller catches `TypeError`/`ValueError`
(so failure is `none`). -/
def pyFloatVal : PyVal → Option Rat
  | .vInt n => some (mkRat n 1)
  | .vFloat q => some q
  | .vBool b => some (mkRat (if b then 1 else 0) 1)
  | .vStr s => pyFloatOfString s
  | _ => none

/-- Python `v or default` where the default is an int literal. -/
def pyOrDefault (v : PyVal) (d : Int) : PyVal :=
  if pyTruthy v then v else .vInt d

/-- Raw Actor input mapping (`Actor.get_input()`); `vNone` stands for an
absent key (every read in `_normalize_input` goes through `raw.get`, for
which the two are indistinguishable). -/
structure RawInput where
  keywords : PyVal := .vNone
  max_items_per_keyword : PyVal := .vNone
  max_pages : PyVal := .vNone
  country : PyVal := .vNone
  min_rating : PyVal := .vNone
  min_reviews : PyVal := .vNone
  exclude_sponsored : PyVal := .vNone
  fetch_details : PyVal := .vNone
  max_detail_items : PyVal := .vNone

/-- The `AmazonSearchInput` dataclass. -/
structure AmazonSearchInput where
  keywords : List String
  max_items_per_keyword : Int
  max_pages : Int
  country : String
  min_rating : Option Rat
  min_reviews : Option Int
  exclude_sponsored : Bool
  fetch_details : Bool
  max_detail_items : Int
deriving Repr, DecidableEq

/-- Lines 37–45: keyword list normalization.  Iterating a truthy non-string,
non-list value raises `TypeError` (not caught in the source). -/
def normKeywords (v : PyVal) : Except Unit (List String) :=
  let cleaned : List PyVal → List String := fun xs =>
    xs.filterMap fun x => match x with
      | .vStr k => if pyStrip k = "" then none else some (pyStrip k)
      | _ => none
  let dflt : List String → List String := fun l =>
    if l.isEmpty then ["iphone 17 case"] else l
  match (if pyTruthy v then v else .vList []) with
  | .vStr s => .ok (dflt (cleaned [.vStr s]))
  | .vList xs => .ok (dflt (cleaned xs))
  | _ => .error ()

/-- Lines 47–49: `int(raw.get('max_items_per_keyword', 50) or 50)`,
non-positive values replaced by 50. -/
def normMaxItems (v : PyVal) : Except Unit Int :=
  (pyIntVal (pyOrDefault v 50)).map fun n => if n ≤ 0 then 50 else n

/-- Lines 51–55: `int(raw.get('max_pages', 3) or 3)`, non-positive values
replaced by 1, values above 20 clamped to 20. -/
def normMaxPages (v : PyVal) : Except Unit Int :=
  (pyIntVal (pyOrDefault v 3)).map fun n =>
    let n := if n ≤ 0 then 1 else n
    if n > 20 then 20 else n

/-- Lines 79–83: `int(raw.get('max_detail_items', 5) or 5)`, non-positive
values replaced by 1, values above 50 clamped to 50. -/
def normMaxDetail (v : PyVal) : Except Unit Int :=
  (pyIntVal (pyOrDefault v 5)).map fun n =>
    let n := if n ≤ 0 then 1 else n
    if n > 50 then 50 else n

/-- Lines 57–59: `(raw.get('country') or 'US').upper()` (raises
`AttributeError` on a truthy non-string), restricted to the fixed set. -/
def normCountry (v : PyVal) : Except Unit String :=
  match (if pyTruthy v then v else .vStr "US") with
  | .vStr s =>
    let u := pyUpper s
    .ok (if u = "US" ∨ u = "UK" ∨ u = "DE" ∨ u = "FR" ∨ u = "JP" then u else "US")
  | _ => .error ()

/-- Lines 61–66: `min_rating`, `float(...)` with `TypeError`/`ValueError`
caught to `None`. -/
def normMinRating (v : PyVal) : Option Rat :=
  match v with
  | .vNone => none
  | w => pyFloatVal w

/-- Lines 68–74: `min_reviews`, `int(...)` with errors caught to `None`, and
non-positive values collapsed to `None`. -/
def normMinReviews (v : PyVal) : Option Int :=
  match v with
  | .vNone => none
  | w => match pyIntVal w with
    | .ok m => if m > 0 then some m else none
    | .error _ => none

/-- `_normalize_input` (lines 35–95).  The `error` case models an uncaught
exception escaping the function; since all modelled exceptions are
indistinguishable the evaluation order of the fallible fields does not affect
the observable result. -/
def _normalize_input (raw : RawInput) : Except Unit AmazonSearchInput :=
  match normKeywords raw.keywords, normMaxItems raw.max_items_per_keyword,
      normMaxPages raw.max_pages, normCountry raw.country,
      normMaxDetail raw.max_detail_items with
  | .ok kws, .ok mi, .ok mp, .ok ctry, .ok md =>
    .ok { keywords := kws
          max_items_per_keyword := mi
          max_pages := mp
          country := ctry
          min_rating := normMinRating raw.min_rating
          min_reviews := normMinReviews raw.min_reviews
          exclude_sponsored := pyTruthy raw.exclude_sponsored
          fetch_details := pyTruthy raw.fetch_details
          max_detail_items := md }
  | _, _, _, _, _ => .error ()

/-- `_country_to_domain` (lines 98–106). -/
def _country_to_domain (country : String) : String :=
  let u := pyUpper country
  if u = "US" then "www.amazon.com"
  else if u = "UK" then "www.amazon.co.uk"
  else if u = "DE" then "www.amazon.de"
  else if u = "FR" then "www.amazon.fr"
  else if u = "JP" then "www.amazon.co.jp"
  else "www.amazon.com"

/-- `base_url = f'https://{domain}'` (line 333). -/
def mkBaseUrl (country : String) : String := "https://" ++ _country_to_domain country

/-! ## Result-card model and `_parse_single_card` (lines 109–284) -/

/-- Outcome of the optional detail-page visit for one product (lines
422–460); every exception below is caught by the per-item handler at
line 454.  `fail` models an exception before the category path is attached
(navigation, breadcrumb reads): nothing attached, `detail_count` untouched.
`failAfterCategory` models an exception *after* the category-path attachment
of line 439 but before `detail_count += 1` at line 453 (the feature-bullet
locator reads at lines 442–450 are fallible awaits): the category path (when
non-empty) is already attached to the record, the bullets are lost, and the
count is *not* advanced.  `ok` is a completed visit — both extractions done
and the count incremented — carrying the `text_content()` results of the
breadcrumb elements and of the feature-bullet elements. -/
inductive DetailOutcome
  | fail
  | failAfterCategory (breadcrumbTexts : List (Option String))
  | ok (breadcrumbTexts : List (Option String)) (bulletTexts : List (Option String))
deriving Repr, DecidableEq

/-- A DOM element as the card parser observes it: the results of
`text_content()`, `get_attribute('href')` and `get_attribute('src')`. -/
structure Elem where
  text : Option String := none
  href : Option String := none
  src : Option String := none
deriving Repr, DecidableEq

/-- One search-result card.  Each field is the list of elements matched by
the corresponding locator (or the result of a card-level `get_attribute`).
`flaky` models a DOM call on this card raising (caught at line 282);
`slow` models the card breaching the 5-second `asyncio.wait_for` deadline
(caught at line 309). -/
structure Card where
  dataAsin : Option String := none
  titlePrimary : List Elem := []
  titleFallback : List Elem := []
  priceEls : List Elem := []
  origPriceEls : List Elem := []
  ratingEls : List Elem := []
  reviewsEls : List Elem := []
  primeEls : Nat := 0
  dataBrand : Option String := none
  brandEls : List Elem := []
  badgeEls : List Elem := []
  sponsoredEls : List Elem := []
  imageEls : List Elem := []
  detail : DetailOutcome := .ok [] []
  flaky : Bool := false
  slow : Bool := false
deriving Repr, DecidableEq

/-- The scraped item dictionary (lines 266–281); `categoryPath` and
`featureBullets` model the keys optionally added by enrichment
(lines 439, 452). -/
structure ProductRecord where
  asin : String
  title : String
  productUrl : String
  priceText : String
  price : Option Rat
  originalPriceText : String
  rating : Option Rat
  reviewsCount : Option Int
  isPrime : Bool
  brand : String
  badges : List String
  isSponsored : Bool
  imageUrl : String
  currency : String
  categoryPath : Option (List String) := none
  featureBullets : Option (List String) := none
deriving Repr, DecidableEq

/-- `href.split('?')[0]` (lines 141, 143): everything before the first `?`. -/
def stripQuery (href : String) : String :=
  String.mk (href.data.takeWhile (· ≠ '?'))

/-- `(el.first.text_content() or '').strip()` over a locator's matches, or
`''` when nothing matched — the pattern used for price, original price,
rating, reviews and brand texts. -/
def firstText (els : List Elem) : String :=
  match els with
  | [] => ""
  | e :: _ => pyStrip (e.text.getD "")

/-- Price normalization (lines 150–165): keep digits and separators, decide
between European and US separator style, and parse as a float. -/
def parsePriceValue (whole : String) : Option Rat :=
  if whole = "" then none
  else
    let numeric_part := String.mk (whole.data.filter fun ch => ch.isDigit || ch = ',' || ch = '.')
    if numeric_part = "" then none
    else
      let normalized :=
        if numeric_part.data.contains ',' ∧ ¬numeric_part.data.contains '.' then
          pyReplaceChar (pyDropChar numeric_part '.') ',' '.'
        else pyDropChar numeric_part ','
      pyFloatOfString normalized

/-- Currency extraction (lines 169–178).  `price_text` is `whole`, which the
caller already stripped, so `stripped` is empty only when `price_text` is —
the guarded branch below therefore never sees an empty token list. -/
def parseCurrency (price_text : String) : String :=
  if price_text = "" then ""
  else
    let stripped := pyStrip price_text
    let f := stripped.data.headD ' '
    if stripped ≠ "" ∧ (f = '$' ∨ f = '€' ∨ f = '£' ∨ f = '¥') then String.mk [f]
    else
      let last_token := (pySplitWs stripped).getLastD ""
      if last_token.length = 3 ∨ last_token.length = 4 then last_token else ""

/-- Rating parse (lines 191–196): first whitespace token, comma turned into a
point, parsed as float; failure leaves it unset. -/
def parseRating (rating_text : String) : Option Rat :=
  if rating_text = "" then none
  else pyFloatOfString (pyReplaceChar ((pySplitWs rating_text).headD "") ',' '.')

/-- Reviews-count parse (lines 202–207): strip commas and periods, parse as
int; failure leaves it unset. -/
def parseReviews (reviews_text : String) : Option Int :=
  if reviews_text = "" then none
  else pyIntOfString (pyDropChar (pyDropChar reviews_text ',') '.')

/-- The promotional phrases that disqualify a brand string (lines 222–227). -/
def badge_like_keywords : List String :=
  ["amazon\x27s choice", "overall pick", "best seller", "limited time deal"]

/-- Brand resolution (lines 213–229). -/
def resolveBrand (dataBrand : Option String) (brandEls : List Elem) : String :=
  let brand := pyStrip (dataBrand.getD "")
  let brand := if brand = "" then firstText brandEls else brand
  if brand ≠ "" ∧ badge_like_keywords.any (fun k => str_contains (pyLower brand) k) then ""
  else brand

/-- Badge collection (lines 232–242): trimmed texts, first-seen order,
duplicates dropped. -/
def collectBadges (els : List Elem) : List String :=
  els.foldl (fun acc e =>
    match e.text with
    | none => acc
    | some t =>
      if t = "" then acc
      else
        let cleaned := pyStrip t
        if cleaned ≠ "" ∧ ¬acc.contains cleaned then acc ++ [cleaned] else acc) []

/-- Sponsored flag (lines 245–250). -/
def checkSponsored (els : List Elem) : Bool :=
  match els with
  | [] => false
  | e :: _ => str_contains (pyLower (pyStrip (e.text.getD ""))) "sponsored"

/-- Title locator with fallback (lines 125–127). -/
def effTitleEls (c : Card) : List Elem :=
  if c.titlePrimary.length = 0 then c.titleFallback else c.titlePrimary

/-- The three filter checks (lines 253–258); `true` means the card is
discarded. -/
def filteredOut (c : Card) (min_rating : Option Rat) (min_reviews : Option Int)
    (exclude_sponsored : Bool) : Bool :=
  (match min_rating, parseRating (firstText c.ratingEls) with
    | some mr, some rv => decide (rv < mr)
    | _, _ => false) ||
  (match min_reviews, parseReviews (firstText c.reviewsEls) with
    | some mr, some rc => decide (rc < mr)
    | _, _ => false) ||
  (exclude_sponsored && checkSponsored c.sponsoredEls)

/-- Field extraction for a card that survives all discard checks
(lines 133–281, minus the filters). -/
def buildRecord (c : Card) (base_url : String) (asin : String) (first : Elem)
    (href : String) : ProductRecord :=
  let whole := firstText c.priceEls
  { asin := asin
    title := pyStrip (first.text.getD "")
    productUrl := if py_startswith href "/" then base_url ++ stripQuery href else stripQuery href
    priceText := whole
    price := parsePriceValue whole
    originalPriceText := firstText c.origPriceEls
    rating := parseRating (firstText c.ratingEls)
    reviewsCount := parseReviews (firstText c.reviewsEls)
    isPrime := 0 < c.primeEls
    brand := resolveBrand c.dataBrand c.brandEls
    badges := collectBadges c.badgeEls
    isSponsored := checkSponsored c.sponsoredEls
    imageUrl := match c.imageEls with | [] => "" | e :: _ => e.src.getD ""
    currency := parseCurrency whole }

/-- `_parse_single_card` (lines 109–284): either a fully-populated record or
`none` (discard).  A raised exception anywhere in the body (`flaky`) is
caught by the handler at line 282 and becomes a discard. -/
def _parse_single_card (c : Card) (base_url : String) (min_rating : Option Rat)
    (min_reviews : Option Int) (exclude_sponsored : Bool) : Option ProductRecord :=
  if c.flaky then none
  else
    match c.dataAsin with
    | none => none
    | some asin =>
      if asin = "" then none
      else
        match effTitleEls c with
        | [] => none
        | first :: _ =>
          match first.href with
          | none => none
          | some href =>
            if href = "" then none
            else if filteredOut c min_rating min_reviews exclude_sponsored then none
            else some (buildRecord c base_url asin first href)

/-- `_extract_product_cards` (lines 287–316), paired with each surviving
record's detail-page outcome (the pair is consumed by the enrichment model;
the emitted record is the first component).  A card that breaches the
per-card deadline (`slow`) is skipped. -/
def _extract_product_cards (cards : List Card) (base_url : String)
    (min_rating : Option Rat) (min_reviews : Option Int) (exclude_sponsored : Bool) :
    List (ProductRecord × DetailOutcome) :=
  cards.filterMap fun c =>
    if c.slow then none
    else (_parse_single_card c base_url min_rating min_reviews exclude_sponsored).map
      fun r => (r, c.detail)

/-! ## Per-keyword crawl model (`_scrape_keyword`, lines 319–500, and
`main`, lines 503–561)

The browser environment is abstracted as the sequence of outcomes the crawl
loop would observe: what the n-th `context.new_page()` / `page.goto(...)` of
the keyword produces.  The navigation-retry loop (lines 349–368) is collapsed
into a single outcome per page — success with rendered content, or a timeout
that survives all three attempts and is re-raised; the backoff sleeps and
attempt counts are unobservable in the loop's results.  `currentSearchUrl`
is consumed only by navigation, which the environment abstracts, so it is not
tracked. -/

/-- The next-page control (lines 481–488): absent-or-disabled, present
without a resolvable href, or present with an href. -/
inductive NextBtn
  | absent
  | noHref
  | withHref (h : String)
deriving Repr, DecidableEq

/-- A successfully rendered search page.  `procExn` models an unexpected
exception while processing the page inside the per-page `try` (line 346;
modelled at the `page.content()` read, the first fallible processing step) —
the uniform handler at line 496 makes the exact raise site unobservable. -/
structure LoadedPage where
  procExn : Bool := false
  content : String := ""
  cards : List Card := []
  next : NextBtn := .absent
deriving Repr, DecidableEq

/-- Outcome of the (retried) navigation for one page. -/
inductive NavOutcome
  | navFail
  | loaded (pg : LoadedPage)
deriving Repr, DecidableEq

/-- What one iteration of the while-loop runs into.  `openFail` models
`context.new_page()` (line 345) raising — this call sits outside the
per-page `try`, so such a failure propagates out of `_scrape_keyword`.
`closeFail` models `await page.close()` in the per-page `finally`
(line 500) raising: the `finally` runs on every exit from the `try` (break,
advance, or after the `except` handler), and an exception raised there is
caught by nothing in `_scrape_keyword`, so it too propagates — after the
records of that page have already been pushed. -/
inductive PageSpec
  | openFail
  | page (nav : NavOutcome) (closeFail : Bool)
deriving Repr, DecidableEq

/-- No page-scope open or close failure: the two escape hatches through
which an exception can leave `_scrape_keyword`. -/
def scopeOk : PageSpec → Bool
  | .openFail => false
  | .page _ closeFail => !closeFail

/-- The bot-protection markers (lines 372–377). -/
def captcha_markers : List String :=
  ["api-services-support@amazon.com",
   "to discuss automated access to amazon data",
   "/captcha/",
   "enter the characters you see below"]

/-- Line 378: does the lower-cased page content contain any marker? -/
def isCaptchaPage (content : String) : Bool :=
  captcha_markers.any fun m => str_contains (pyLower content) m

/-- The `if text: cleaned = text.strip(); if cleaned: append(cleaned)`
collection pattern of the breadcrumb and feature-bullet loops
(lines 432–437, 445–450). -/
def cleanTexts (texts : List (Option String)) : List String :=
  texts.filterMap fun o => o.bind fun t =>
    if t = "" then none
    else if pyStrip t = "" then none else some (pyStrip t)

/-- The detail-enrichment loop (lines 414–460).  `count` is `detail_count`,
which the source initializes to 0 afresh on every page.  On reaching the
ceiling the loop `break`s, leaving the remaining records untouched; a record
without a product URL is skipped; a visit that fails before any attachment
(caught per item) leaves the record unenriched and does not increment the
count; a visit that fails between the category-path attachment (line 439)
and the count increment (line 453) leaves the non-empty category path on the
record but still does not increment the count; a completed visit attaches
whichever extracted sequence is non-empty and increments the count. -/
def enrichItems (max_detail_items : Nat) : Nat → List (ProductRecord × DetailOutcome) →
    List ProductRecord
  | _, [] => []
  | count, (r, d) :: rest =>
    if max_detail_items ≤ count then r :: rest.map Prod.fst
    else if r.productUrl = "" then r :: enrichItems max_detail_items count rest
    else
      match d with
      | .fail => r :: enrichItems max_detail_items count rest
      | .failAfterCategory bcTexts =>
        let category_path := cleanTexts bcTexts
        let r' := { r with
          categoryPath := if category_path ≠ [] then some category_path else r.categoryPath }
        r' :: enrichItems max_detail_items count rest
      | .ok bcTexts blTexts =>
        let category_path := cleanTexts bcTexts
        let feature_bullets := cleanTexts blTexts
        let r' := { r with
          categoryPath := if category_path ≠ [] then some category_path else r.categoryPath
          featureBullets := if feature_bullets ≠ [] then some feature_bullets else r.featureBullets }
        r' :: enrichItems max_detail_items (count + 1) rest

/-- The arguments of `_scrape_keyword` (lines 319–330). -/
structure ScrapeParams where
  keyword : String
  country : String
  max_items : Nat
  max_pages : Nat
  min_rating : Option Rat := none
  min_reviews : Option Int := none
  exclude_sponsored : Bool := false
  fetch_details : Bool := false
  max_detail_items : Nat := 5
deriving Repr, DecidableEq

/-- One record as pushed to the dataset (lines 462–470): the item fields
plus `keyword`, `country` and `pageIndex`. -/
structure Emitted where
  keyword : String
  country : String
  pageIndex : Nat
  record : ProductRecord
deriving Repr, DecidableEq

/-- Observable outcome of one keyword's crawl: the records pushed, the
number of pages the loop opened-and-navigated, and whether an exception
escaped `_scrape_keyword` (possible only from `context.new_page()`, which
sits outside the per-page `try`, or from `page.close()` in the `finally`,
which nothing in `_scrape_keyword` catches). -/
structure KwOutcome where
  emitted : List Emitted
  navCount : Nat
  aborted : Bool
deriving Repr, DecidableEq

/-- The body of one loop iteration for a successfully rendered page
(lines 370–495): returns the records pushed for the page, the updated
`total_collected`, and whether the loop advances to a next page (`false`
covers every `break` of the source: unexpected exception, captcha page, no
cards, nothing parsed, item budget reached, next control absent / disabled /
without destination). -/
def pageStep (p : ScrapeParams) (pg : LoadedPage) (total_collected page_index : Nat) :
    List Emitted × Nat × Bool :=
  if pg.procExn then ([], total_collected, false)
  else if isCaptchaPage pg.content then ([], total_collected, false)
  else if pg.cards.isEmpty then ([], total_collected, false)
  else
    let remaining := p.max_items - total_collected
    if remaining = 0 then ([], total_collected, false)
    else
      let cards := if remaining < pg.cards.length then pg.cards.take remaining else pg.cards
      let pairs := _extract_product_cards cards (mkBaseUrl p.country)
        p.min_rating p.min_reviews p.exclude_sponsored
      if pairs.isEmpty then ([], total_collected, false)
      else
        let items :=
          if p.fetch_details ∧ 0 < p.max_detail_items then
            enrichItems p.max_detail_items 0 pairs
          else pairs.map Prod.fst
        let pushed := items.map fun r =>
          (⟨p.keyword, p.country, page_index, r⟩ : Emitted)
        let total' := total_collected + items.length
        if p.max_items ≤ total' then (pushed, total', false)
        else
          match pg.next with
          | .absent => (pushed, total', false)
          | .noHref => (pushed, total', false)
          | .withHref _ => (pushed, total', true)

/-- The while-loop of `_scrape_keyword` (lines 344–500), one constructor of
the environment list consumed per iteration.  `total_collected` and
`page_index` are the `CrawlState` variables (lines 341–342).  An exhausted
environment behaves like a navigation failure with nothing rendered. -/
def scrapeLoop (p : ScrapeParams) : List PageSpec → Nat → Nat → KwOutcome
  | env, total_collected, page_index =>
    if total_collected < p.max_items ∧ page_index ≤ p.max_pages then
      match env with
      | [] => ⟨[], 0, false⟩
      | .openFail :: _ => ⟨[], 0, true⟩
      | .page .navFail closeFail :: _ => ⟨[], 1, closeFail⟩
      | .page (.loaded pg) closeFail :: rest =>
        match pageStep p pg total_collected page_index, closeFail with
        | (pushed, _, _), true => ⟨pushed, 1, true⟩
        | (pushed, total', true), false =>
          let r := scrapeLoop p rest total' (page_index + 1)
          ⟨pushed ++ r.emitted, 1 + r.navCount, r.aborted⟩
        | (pushed, _, false), false => ⟨pushed, 1, false⟩
    else ⟨[], 0, false⟩

/-- `_scrape_keyword` entry: `total_collected = 0`, `page_index = 1`
(lines 341–342). -/
def _scrape_keyword (p : ScrapeParams) (env : List PageSpec) : KwOutcome :=
  scrapeLoop p env 0 1

/-- How `main` (lines 545–558) builds `_scrape_keyword`'s arguments from the
normalized input.  All three counters are ≥ 1 after normalization, so `toNat`
is faithful. -/
def paramsFor (inp : AmazonSearchInput) (kw : String) : ScrapeParams :=
  { keyword := kw
    country := inp.country
    max_items := inp.max_items_per_keyword.toNat
    max_pages := inp.max_pages.toNat
    min_rating := inp.min_rating
    min_reviews := inp.min_reviews
    exclude_sponsored := inp.exclude_sponsored
    fetch_details := inp.fetch_details
    max_detail_items := inp.max_detail_items.toNat }

/-- The keyword loop of `main` (lines 546–558): keywords run sequentially;
an exception escaping `_scrape_keyword` propagates (the loop has no handler),
so the remaining keywords are not processed.  `envOf` gives each keyword's
environment. -/
def runKeywords (inp : AmazonSearchInput) (envOf : String → List PageSpec) :
    List String → List Emitted
  | [] => []
  | kw :: rest =>
    let r := _scrape_keyword (paramsFor inp kw) (envOf kw)
    if r.aborted then r.emitted else r.emitted ++ runKeywords inp envOf rest

/-- All records pushed by one run of `main` over already-normalized input. -/
def runMain (inp : AmazonSearchInput) (envOf : String → List PageSpec) : List Emitted :=
  runKeywords inp envOf inp.keywords

/-! ## Shared lemmas -/

/-- Enrichment never adds or removes records. -/
theorem enrichItems_length (m : Nat) :
    ∀ (count : Nat) (prs : List (ProductRecord × DetailOutcome)),
      (enrichItems m count prs).length = prs.length := by
  intro count prs
  induction prs generalizing count with
  | nil => rfl
  | cons pr rest ih =>
    obtain ⟨r, d⟩ := pr
    rw [enrichItems.eq_def]
    dsimp only
    split
    · simp
    · split
      · simpa using ih count
      · split
        · simpa using ih count
        · simpa using ih count
        · simpa using ih (count + 1)

/-- Batch extraction yields at most one record per card. -/
theorem extract_length_le (cards : List Card) (b : String) (mr : Option Rat)
    (mv : Option Int) (es : Bool) :
    (_extract_product_cards cards b mr mv es).length ≤ cards.length :=
  List.length_filterMap_le _ _

/-- Inversion of a successful card parse: all discard checks passed and the
result is the fully-built record. -/
theorem parse_single_card_inv {c : Card} {b : String} {mr : Option Rat}
    {mv : Option Int} {es : Bool} {r : ProductRecord}
    (h : _parse_single_card c b mr mv es = some r) :
    ∃ asin first rest href,
      c.flaky = false ∧ c.dataAsin = some asin ∧ asin ≠ "" ∧
      effTitleEls c = first :: rest ∧ first.href = some href ∧ href ≠ "" ∧
      filteredOut c mr mv es = false ∧ r = buildRecord c b asin first href := by
  unfold _parse_single_card at h
  split at h
  · exact absurd h (by simp)
  next hf =>
    split at h
    · exact absurd h (by simp)
    next asin ha =>
      split at h
      · exact absurd h (by simp)
      next ha0 =>
        split at h
        · exact absurd h (by simp)
        next first rest ht =>
          split at h
          · exact absurd h (by simp)
          next href hh =>
            split at h
            · exact absurd h (by simp)
            next hh0 =>
              split at h
              · exact absurd h (by simp)
              next hfo =>
                exact ⟨asin, first, rest, href, by simpa using hf, ha, ha0, ht, hh,
                  hh0, by simpa using hfo, (Option.some.inj h).symm⟩

/-- The truncation of line 395–396 leaves at most `rem` cards. -/
theorem truncated_length_le (rem : Nat) (cs : List Card) :
    (if rem < cs.length then cs.take rem else cs).length ≤ rem := by
  split
  · simp [List.length_take]
  · next h => exact Nat.le_of_not_lt h

/-- The enriched-or-not item list of one page has one entry per parsed pair. -/
theorem items_length_eq (p : ScrapeParams) (prs : List (ProductRecord × DetailOutcome)) :
    (if p.fetch_details ∧ 0 < p.max_detail_items then
        enrichItems p.max_detail_items 0 prs
      else prs.map Prod.fst).length = prs.length := by
  split
  · exact enrichItems_length _ _ _
  · exact List.length_map _ _


/-- Page-step bookkeeping: the new total is the old total plus the number of
pushed records; at most `max_items - total` records are pushed; the loop only
advances while strictly under the item budget; every record pushed on this
page carries this page's index and the keyword/country. -/
theorem pageStep_spec (p : ScrapeParams) (pg : LoadedPage) (t pi : Nat) :
    (pageStep p pg t pi).2.1 = t + (pageStep p pg t pi).1.length ∧
    (pageStep p pg t pi).1.length ≤ p.max_items - t ∧
    ((pageStep p pg t pi).2.2 = true → (pageStep p pg t pi).2.1 < p.max_items) ∧
    (∀ e ∈ (pageStep p pg t pi).1,
      e.pageIndex = pi ∧ e.keyword = p.keyword ∧ e.country = p.country) := by
  unfold pageStep
  split
  · simp
  split
  · simp
  split
  · simp
  dsimp only
  split
  · simp
  split <;> (split; · simp)
  all_goals split
  all_goals split
  all_goals try split
  all_goals
    refine ⟨by simp, ?_, ?_, ?_⟩ <;>
      first
        | (simp; done)
        | (simp only [List.length_map, enrichItems_length]
           refine le_trans (extract_length_le _ _ _ _ _) ?_
           first
             | (rw [List.length_take]; omega)
             | omega)
        | (intro _; dsimp only; omega)
        | (intro e he
           simp only [List.mem_map] at he
           obtain ⟨r, _, rfl⟩ := he
           exact ⟨rfl, rfl, rfl⟩)

/-- Loop invariant: the loop never pushes more than the remaining item
budget. -/
theorem scrapeLoop_emitted_le (p : ScrapeParams) :
    ∀ (env : List PageSpec) (t pi : Nat),
      (scrapeLoop p env t pi).emitted.length ≤ p.max_items - t := by
  intro env
  induction env with
  | nil =>
    intro t pi
    rw [scrapeLoop.eq_def]
    dsimp only
    split <;> simp
  | cons ps rest ih =>
    intro t pi
    rw [scrapeLoop.eq_def]
    dsimp only
    split
    · cases ps with
      | openFail => simp
      | page nav closeFail =>
        cases nav with
        | navFail => cases closeFail <;> simp
        | loaded pg =>
          dsimp only
          obtain ⟨hTot, hLen, hAdv, -⟩ := pageStep_spec p pg t pi
          rcases hps : pageStep p pg t pi with ⟨pushed, total', adv⟩
          rw [hps] at hTot hLen hAdv
          dsimp only at hTot hLen hAdv
          cases closeFail with
          | true =>
            cases adv <;> (dsimp only; exact hLen)
          | false =>
            cases adv with
            | false =>
              dsimp only
              exact hLen
            | true =>
              dsimp only
              have hrec := ih total' (pi + 1)
              have hlt := hAdv rfl
              simp only [List.length_append]
              omega
    · simp

/-- Loop invariant: at most `max_pages + 1 - page_index` further pages are
opened and navigated. -/
theorem scrapeLoop_nav_le (p : ScrapeParams) :
    ∀ (env : List PageSpec) (t pi : Nat),
      (scrapeLoop p env t pi).navCount ≤ p.max_pages + 1 - pi := by
  intro env
  induction env with
  | nil =>
    intro t pi
    rw [scrapeLoop.eq_def]
    dsimp only
    split <;> simp
  | cons ps rest ih =>
    intro t pi
    rw [scrapeLoop.eq_def]
    dsimp only
    split
    · next hcond =>
      obtain ⟨-, hpage⟩ := hcond
      cases ps with
      | openFail => simp
      | page nav closeFail =>
        cases nav with
        | navFail =>
          dsimp only
          omega
        | loaded pg =>
          dsimp only
          rcases hps : pageStep p pg t pi with ⟨pushed, total', adv⟩
          cases closeFail with
          | true =>
            cases adv <;> (dsimp only; omega)
          | false =>
            cases adv with
            | false =>
              dsimp only
              omega
            | true =>
              dsimp only
              have hrec := ih total' (pi + 1)
              omega
    · simp

/-- Loop invariant: every record is pushed while `page_index` is within the
page budget. -/
theorem scrapeLoop_pageIndex_le (p : ScrapeParams) :
    ∀ (env : List PageSpec) (t pi : Nat) (e : Emitted),
      e ∈ (scrapeLoop p env t pi).emitted → pi ≤ e.pageIndex ∧ e.pageIndex ≤ p.max_pages := by
  intro env
  induction env with
  | nil =>
    intro t pi e he
    rw [scrapeLoop.eq_def] at he
    dsimp only at he
    split at he <;> simp at he
  | cons ps rest ih =>
    intro t pi e he
    rw [scrapeLoop.eq_def] at he
    dsimp only at he
    split at he
    · next hcond =>
      obtain ⟨-, hpage⟩ := hcond
      cases ps with
      | openFail => simp at he
      | page nav closeFail =>
        cases nav with
        | navFail => cases closeFail <;> simp at he
        | loaded pg =>
          dsimp only at he
          obtain ⟨-, -, -, hMem⟩ := pageStep_spec p pg t pi
          rcases hps : pageStep p pg t pi with ⟨pushed, total', adv⟩
          rw [hps] at hMem he
          dsimp only at hMem he
          cases closeFail with
          | true =>
            cases adv <;>
              (dsimp only at he
               have := (hMem e he).1
               omega)
          | false =>
            cases adv with
            | false =>
              dsimp only at he
              have := (hMem e he).1
              omega
            | true =>
              dsimp only at he
              simp only [List.mem_append] at he
              rcases he with he | he
              · have := (hMem e he).1
                omega
              · have := ih total' (pi + 1) e he
                omega
    · simp at he

/-- Loop invariant: the only ways an exception escapes the loop are a
page-scope open failure and a page-scope close failure. -/
theorem scrapeLoop_not_aborted (p : ScrapeParams) :
    ∀ (env : List PageSpec) (t pi : Nat), (∀ ps ∈ env, scopeOk ps = true) →
      (scrapeLoop p env t pi).aborted = false := by
  intro env
  induction env with
  | nil =>
    intro t pi _
    rw [scrapeLoop.eq_def]
    dsimp only
    split <;> simp
  | cons ps rest ih =>
    intro t pi hno
    have hhead : scopeOk ps = true := hno ps (List.mem_cons_self _ _)
    have htail : ∀ q ∈ rest, scopeOk q = true := fun q hq =>
      hno q (List.mem_cons_of_mem _ hq)
    rw [scrapeLoop.eq_def]
    dsimp only
    split
    · cases ps with
      | openFail => exact absurd hhead (by simp [scopeOk])
      | page nav closeFail =>
        have hcf : closeFail = false := by simpa [scopeOk] using hhead
        subst hcf
        cases nav with
        | navFail => simp
        | loaded pg =>
          dsimp only
          rcases hps : pageStep p pg t pi with ⟨pushed, total', adv⟩
          cases adv with
          | false => simp
          | true =>
            dsimp only
            exact ih total' (pi + 1) htail
    · simp

/-- A record counts as enriched when it carries either enrichment field. -/
def isEnriched (r : ProductRecord) : Bool :=
  r.categoryPath.isSome || r.featureBullets.isSome

/-- Freshly extracted records carry no enrichment fields. -/
theorem buildRecord_unenriched (c : Card) (b asin : String) (first : Elem) (href : String) :
    isEnriched (buildRecord c b asin first href) = false := rfl

/-- Every pair produced by batch extraction is unenriched. -/
theorem extract_unenriched (cards : List Card) (b : String) (mr : Option Rat)
    (mv : Option Int) (es : Bool) :
    ∀ pr ∈ _extract_product_cards cards b mr mv es, isEnriched pr.1 = false := by
  intro pr hpr
  unfold _extract_product_cards at hpr
  simp only [List.mem_filterMap] at hpr
  obtain ⟨c, -, hc⟩ := hpr
  split at hc
  · exact absurd hc (by simp)
  · simp only [Option.map_eq_some'] at hc
    obtain ⟨r, hr, hrr⟩ := hc
    obtain ⟨asin, first, rest, href, -, -, -, -, -, -, -, hbuild⟩ := parse_single_card_inv hr
    rw [← hrr]
    dsimp only
    rw [hbuild]
    exact buildRecord_unenriched ..

/-- Counting over a cons adds at most one. -/
theorem countP_cons_le {α : Type} (p : α → Bool) (x : α) (l : List α) :
    (x :: l).countP p ≤ l.countP p + 1 := by
  rw [List.countP_cons]
  split <;> omega

/-- Does this outcome take the partial-failure path (category attached, count
not advanced)? -/
def DetailOutcome.isPartialFail : DetailOutcome → Bool
  | .failAfterCategory _ => true
  | _ => false

/-- The enrichment pass marks at most `m - count` further records — provided
no visit takes the partial-failure path, which attaches a category path
without advancing the count. -/
theorem enrich_countP_le (m : Nat) :
    ∀ (prs : List (ProductRecord × DetailOutcome)) (count : Nat),
      (∀ pr ∈ prs, isEnriched pr.1 = false) →
      (∀ pr ∈ prs, pr.2.isPartialFail = false) →
      (enrichItems m count prs).countP (fun r => isEnriched r) ≤ m - count := by
  intro prs
  induction prs with
  | nil => intro count _ _; simp [enrichItems]
  | cons pr rest ih =>
    intro count hall hnp
    obtain ⟨r, d⟩ := pr
    have hr : isEnriched r = false := hall (r, d) (List.mem_cons_self _ _)
    have hrest : ∀ x ∈ rest, isEnriched x.1 = false := fun x hx =>
      hall x (List.mem_cons_of_mem _ hx)
    have hnprest : ∀ x ∈ rest, x.2.isPartialFail = false :=
      fun x hx => hnp x (List.mem_cons_of_mem _ hx)
    rw [enrichItems.eq_def]
    dsimp only
    split
    · -- ceiling reached: everything left is unenriched
      have hz : (r :: rest.map Prod.fst).countP (fun r => isEnriched r) = 0 := by
        rw [List.countP_eq_zero]
        intro a ha
        rcases List.mem_cons.mp ha with rfl | ha
        · simp [hr]
        · obtain ⟨x, hx, rfl⟩ := List.mem_map.mp ha
          simp [hrest x hx]
      omega
    · next hceil =>
      have hlt : count < m := Nat.lt_of_not_le hceil
      split
      · rw [List.countP_cons]
        have := ih count hrest hnprest
        simp [hr]
        omega
      · split
        · rw [List.countP_cons]
          have := ih count hrest hnprest
          simp [hr]
          omega
        · next bc =>
          have := hnp (r, DetailOutcome.failAfterCategory bc) (List.mem_cons_self _ _)
          simp [DetailOutcome.isPartialFail] at this
        · refine le_trans (countP_cons_le _ _ _) ?_
          have := ih (count + 1) hrest hnprest
          omega

/-- A record without feature bullets before enrichment has them afterwards
only via a *completed* visit; the bullet-carrying records of one page are
therefore bounded by the ceiling unconditionally, partial failures
included. -/
theorem enrich_bullets_countP_le (m : Nat) :
    ∀ (prs : List (ProductRecord × DetailOutcome)) (count : Nat),
      (∀ pr ∈ prs, pr.1.featureBullets = none) →
      (enrichItems m count prs).countP (fun r => r.featureBullets.isSome) ≤ m - count := by
  intro prs
  induction prs with
  | nil => intro count _; simp [enrichItems]
  | cons pr rest ih =>
    intro count hall
    obtain ⟨r, d⟩ := pr
    have hr : r.featureBullets = none := hall (r, d) (List.mem_cons_self _ _)
    have hrest : ∀ x ∈ rest, x.1.featureBullets = none := fun x hx =>
      hall x (List.mem_cons_of_mem _ hx)
    rw [enrichItems.eq_def]
    dsimp only
    split
    · have hz : (r :: rest.map Prod.fst).countP (fun r => r.featureBullets.isSome) = 0 := by
        rw [List.countP_eq_zero]
        intro a ha
        rcases List.mem_cons.mp ha with rfl | ha
        · simp [hr]
        · obtain ⟨x, hx, rfl⟩ := List.mem_map.mp ha
          simp [hrest x hx]
      omega
    · next hceil =>
      have hlt : count < m := Nat.lt_of_not_le hceil
      split
      · rw [List.countP_cons]
        have := ih count hrest
        simp [hr]
        omega
      · split
        · rw [List.countP_cons]
          have := ih count hrest
          simp [hr]
          omega
        · rw [List.countP_cons]
          have := ih count hrest
          simp [hr]
          omega
        · refine le_trans (countP_cons_le _ _ _) ?_
          have := ih (count + 1) hrest
          omega

/-- Query truncation removes everything from the first `?` on. -/
theorem not_mem_stripQuery (href : String) : '?' ∉ (stripQuery href).data := by
  intro hmem
  unfold stripQuery at hmem
  have := List.mem_takeWhile_imp hmem
  simp at this

/-- No marketplace base origin contains a `?`. -/
theorem not_mem_mkBaseUrl (country : String) : '?' ∉ (mkBaseUrl country).data := by
  unfold mkBaseUrl _country_to_domain
  dsimp only
  split
  · decide
  split
  · decide
  split
  · decide
  split
  · decide
  split
  · decide
  · decide

/-- Filtering by a predicate the needle satisfies does not change
containment. -/
theorem contains_filter {l : List Char} {p : Char → Bool} {c : Char} (hc : p c = true) :
    (l.filter p).contains c = l.contains c := by
  induction l with
  | nil => rfl
  | cons a as ih =>
    rw [List.filter_cons]
    split
    · rw [List.contains_cons, List.contains_cons, ih]
    · next hpa =>
      rw [List.contains_cons, ih]
      have hca : (c == a) = false := by
        rw [beq_eq_false_iff_ne]
        rintro rfl
        exact hpa hc
      rw [hca, Bool.false_or]

/-- Specification-side currency rule, written from the spec's words: the raw
price text's first character when it is one of `$ € £ ¥`; otherwise the
trailing whitespace-delimited token when that token is 3–4 characters long;
otherwise empty. -/
def currency_rule_spec (s : String) : String :=
  let f := s.data.headD ' '
  if s ≠ "" ∧ (f = '$' ∨ f = '€' ∨ f = '£' ∨ f = '¥') then String.mk [f]
  else
    let tok := (pySplitWs s).getLastD ""
    if tok.length = 3 ∨ tok.length = 4 then tok else ""

/-- On already-stripped price texts (the only ones the extractor produces,
since `whole` is stripped at capture) the implementation matches the
specification rule. -/
theorem parseCurrency_eq_rule (s : String) (h : pyStrip s = s) :
    parseCurrency s = currency_rule_spec s := by
  by_cases hs : s = ""
  · subst hs; rfl
  · unfold parseCurrency currency_rule_spec
    rw [if_neg hs, h]

/-- Specification-side price rule, written from the spec's words (keeping
digits and separators, per "normalize digits and separators"): a text with a
comma but no period is European style — periods stripped, the comma becomes
the decimal point; otherwise commas are stripped; the result is parsed as a
float, failure meaning an absent price. -/
def price_rule_spec (s : String) : Option Rat :=
  let kept := s.data.filter fun ch => ch.isDigit || ch = ',' || ch = '.'
  let normalized :=
    if s.data.contains ',' ∧ ¬s.data.contains '.' then
      (kept.filter (· ≠ '.')).map fun ch => if ch = ',' then '.' else ch
    else kept.filter (· ≠ ',')
  pyFloatOfString (String.mk normalized)

/-- The implementation's price normalization equals the specification rule on
every input. -/
theorem parsePriceValue_eq_rule (s : String) : parsePriceValue s = price_rule_spec s := by
  unfold parsePriceValue price_rule_spec pyReplaceChar pyDropChar
  dsimp only
  by_cases hs : s = ""
  · subst hs; rfl
  · rw [if_neg hs]
    rw [contains_filter (by decide), contains_filter (by decide)]
    by_cases hnp : String.mk (s.data.filter fun ch => ch.isDigit || ch = ',' || ch = '.') = ""
    · rw [if_pos hnp]
      have hk : s.data.filter (fun ch => ch.isDigit || ch = ',' || ch = '.') = [] := by
        have := congrArg String.data hnp
        simpa using this
      rw [hk]
      split <;> simp [pyFloatOfString, pyStrip]
    · rw [if_neg hnp]
      split <;> rfl

/-- A successfully normalized item budget is at least 1. -/
theorem normMaxItems_ok_pos {v : PyVal} {n : Int} (h : normMaxItems v = .ok n) : 1 ≤ n := by
  unfold normMaxItems at h
  cases hm : pyIntVal (pyOrDefault v 50) with
  | error e => rw [hm] at h; exact absurd h (by simp [Except.map])
  | ok m =>
    rw [hm] at h
    simp only [Except.map, Except.ok.injEq] at h
    split at h <;> omega

/-- A successfully normalized page budget lies in `[1, 20]`. -/
theorem normMaxPages_ok_range {v : PyVal} {n : Int} (h : normMaxPages v = .ok n) :
    1 ≤ n ∧ n ≤ 20 := by
  unfold normMaxPages at h
  cases hm : pyIntVal (pyOrDefault v 3) with
  | error e => rw [hm] at h; exact absurd h (by simp [Except.map])
  | ok m =>
    rw [hm] at h
    simp only [Except.map, Except.ok.injEq] at h
    split at h <;> split at h <;> omega

/-- A successfully normalized detail budget lies in `[1, 50]`. -/
theorem normMaxDetail_ok_range {v : PyVal} {n : Int} (h : normMaxDetail v = .ok n) :
    1 ≤ n ∧ n ≤ 50 := by
  unfold normMaxDetail at h
  cases hm : pyIntVal (pyOrDefault v 5) with
  | error e => rw [hm] at h; exact absurd h (by simp [Except.map])
  | ok m =>
    rw [hm] at h
    simp only [Except.map, Except.ok.injEq] at h
    split at h <;> split at h <;> omega

/-- A missing or falsy item budget yields the default 50. -/
theorem normMaxItems_default {v : PyVal} (h : pyTruthy v = false) :
    normMaxItems v = .ok 50 := by
  unfold normMaxItems pyOrDefault
  rw [h]
  rfl

/-- A missing or falsy page budget yields the default 3. -/
theorem normMaxPages_default {v : PyVal} (h : pyTruthy v = false) :
    normMaxPages v = .ok 3 := by
  unfold normMaxPages pyOrDefault
  rw [h]
  rfl

/-- A missing or falsy detail budget yields the default 5. -/
theorem normMaxDetail_default {v : PyVal} (h : pyTruthy v = false) :
    normMaxDetail v = .ok 5 := by
  unfold normMaxDetail pyOrDefault
  rw [h]
  rfl

/-- A negative integer item budget falls back to 50. -/
theorem normMaxItems_neg {n : Int} (h : n < 0) : normMaxItems (.vInt n) = .ok 50 := by
  have ht : pyTruthy (.vInt n) = true := by
    simp only [pyTruthy, ne_eq, decide_eq_true_eq]
    omega
  unfold normMaxItems pyOrDefault
  rw [ht]
  simp only [if_true]
  simp only [pyIntVal, Except.map, Except.ok.injEq]
  rw [if_pos (by omega)]

/-- A negative integer page budget falls back to 1 (not to the default 3). -/
theorem normMaxPages_neg {n : Int} (h : n < 0) : normMaxPages (.vInt n) = .ok 1 := by
  have ht : pyTruthy (.vInt n) = true := by
    simp only [pyTruthy, ne_eq, decide_eq_true_eq]
    omega
  unfold normMaxPages pyOrDefault
  rw [ht]
  simp only [if_true]
  simp only [pyIntVal, Except.map, Except.ok.injEq]
  have h0 : n ≤ 0 := by omega
  rw [if_pos h0]
  decide

/-- A negative integer detail budget falls back to 1 (not to the default 5). -/
theorem normMaxDetail_neg {n : Int} (h : n < 0) : normMaxDetail (.vInt n) = .ok 1 := by
  have ht : pyTruthy (.vInt n) = true := by
    simp only [pyTruthy, ne_eq, decide_eq_true_eq]
    omega
  unfold normMaxDetail pyOrDefault
  rw [ht]
  simp only [if_true]
  simp only [pyIntVal, Except.map, Except.ok.injEq]
  have h0 : n ≤ 0 := by omega
  rw [if_pos h0]
  decide

/-- Inversion of a successful normalization into its per-field results. -/
theorem normalize_input_inv {raw : RawInput} {out : AmazonSearchInput}
    (h : _normalize_input raw = .ok out) :
    ∃ kws mi mp ctry md,
      normKeywords raw.keywords = .ok kws ∧
      normMaxItems raw.max_items_per_keyword = .ok mi ∧
      normMaxPages raw.max_pages = .ok mp ∧
      normCountry raw.country = .ok ctry ∧
      normMaxDetail raw.max_detail_items = .ok md ∧
      out.keywords = kws ∧ out.max_items_per_keyword = mi ∧ out.max_pages = mp ∧
      out.country = ctry ∧ out.max_detail_items = md := by
  unfold _normalize_input at h
  split at h <;> try exact Except.noConfusion h
  all_goals
    rename_i kws mi mp ctry md hk hi hp hc hd
    rw [Except.ok.injEq] at h
    subst h
    exact ⟨kws, mi, mp, ctry, md, hk, hi, hp, hc, hd, rfl, rfl, rfl, rfl, rfl⟩

/-! ## Concrete fixtures for scenario theorems and witnesses -/

/-- A minimal well-formed result card: has an ASIN and a title link. -/
def sampleCard (a : String) : Card :=
  { dataAsin := some a
    titlePrimary := [{ text := some "Widget", href := some "/dp/X" }] }

/-- A well-formed card whose detail page yields a two-crumb category path. -/
def detailCard (a : String) : Card :=
  { sampleCard a with detail := .ok [some "Electronics", some "Phone Cases"] [] }

/-- A successfully rendered results page with the given cards and next
control. -/
def resultsPage (cs : List Card) (nb : NextBtn) : PageSpec :=
  .page (.loaded { content := "<html>results</html>", cards := cs, next := nb }) false

/-! ## Claim C1 — input normalization -/

/-- C1 (amended): whenever `_normalize_input` returns (rather than raising),
the numeric fields are within their safe ranges; a missing or falsy numeric
field falls back to its stated default (50, 3, 5); but a *negative* parsed
value falls back to 50 for `max_items_per_keyword`, and to 1 — not to the
stated defaults 3 and 5 — for `max_pages` and `max_detail_items`.
(A numeric field that fails to parse makes `_normalize_input` raise; see the
counterexample.) -/
theorem c1_input_normalization (raw : RawInput) (out : AmazonSearchInput)
    (h : _normalize_input raw = .ok out) :
    (1 ≤ out.max_items_per_keyword ∧
      (1 ≤ out.max_pages ∧ out.max_pages ≤ 20) ∧
      (1 ≤ out.max_detail_items ∧ out.max_detail_items ≤ 50)) ∧
    (pyTruthy raw.max_items_per_keyword = false → out.max_items_per_keyword = 50) ∧
    (pyTruthy raw.max_pages = false → out.max_pages = 3) ∧
    (pyTruthy raw.max_detail_items = false → out.max_detail_items = 5) ∧
    (∀ n : Int, raw.max_items_per_keyword = .vInt n → n < 0 →
      out.max_items_per_keyword = 50) ∧
    (∀ n : Int, raw.max_pages = .vInt n → n < 0 → out.max_pages = 1) ∧
    (∀ n : Int, raw.max_detail_items = .vInt n → n < 0 → out.max_detail_items = 1) := by
  obtain ⟨kws, mi, mp, ctry, md, hk, hi, hp, hc, hd, e1, e2, e3, e4, e5⟩ :=
    normalize_input_inv h
  refine ⟨⟨?_, ?_, ?_⟩, ?_, ?_, ?_, ?_, ?_, ?_⟩
  · rw [e2]; exact normMaxItems_ok_pos hi
  · rw [e3]; exact normMaxPages_ok_range hp
  · rw [e5]; exact normMaxDetail_ok_range hd
  · intro hfalse
    rw [normMaxItems_default hfalse] at hi
    rw [e2]
    exact (Except.ok.inj hi).symm
  · intro hfalse
    rw [normMaxPages_default hfalse] at hp
    rw [e3]
    exact (Except.ok.inj hp).symm
  · intro hfalse
    rw [normMaxDetail_default hfalse] at hd
    rw [e5]
    exact (Except.ok.inj hd).symm
  · intro n hn hneg
    rw [hn, normMaxItems_neg hneg] at hi
    rw [e2]
    exact (Except.ok.inj hi).symm
  · intro n hn hneg
    rw [hn, normMaxPages_neg hneg] at hp
    rw [e3]
    exact (Except.ok.inj hp).symm
  · intro n hn hneg
    rw [hn, normMaxDetail_neg hneg] at hd
    rw [e5]
    exact (Except.ok.inj hd).symm

/-- C1 counterexample, refuting the claim as stated: an unparsable
`max_items_per_keyword` makes `_normalize_input` raise (there is no
try/except around the `int(...)` calls, lines 47/51/79), and negative
`max_pages` / `max_detail_items` fall back to 1, not to their stated
defaults 3 / 5 (lines 52–53, 80–81). -/
theorem c1_counterexample :
    _normalize_input { max_items_per_keyword := .vStr "many" } = .error () ∧
    _normalize_input { max_pages := .vInt (-1) } =
      .ok { keywords := ["iphone 17 case"], max_items_per_keyword := 50, max_pages := 1,
            country := "US", min_rating := none, min_reviews := none,
            exclude_sponsored := false, fetch_details := false, max_detail_items := 5 } ∧
    _normalize_input { max_detail_items := .vInt (-7) } =
      .ok { keywords := ["iphone 17 case"], max_items_per_keyword := 50, max_pages := 3,
            country := "US", min_rating := none, min_reviews := none,
            exclude_sponsored := false, fetch_details := false, max_detail_items := 1 } :=
  ⟨rfl, rfl, rfl⟩

/-- The `SearchParameters` value produced from an empty raw input. -/
def c1_default_out : AmazonSearchInput :=
  { keywords := ["iphone 17 case"], max_items_per_keyword := 50, max_pages := 3,
    country := "US", min_rating := none, min_reviews := none,
    exclude_sponsored := false, fetch_details := false, max_detail_items := 5 }

/-- Witness for C1: the amended theorem applied to the empty raw input. -/
theorem c1_input_normalization_witness :
    (1 ≤ c1_default_out.max_items_per_keyword ∧
      (1 ≤ c1_default_out.max_pages ∧ c1_default_out.max_pages ≤ 20) ∧
      (1 ≤ c1_default_out.max_detail_items ∧ c1_default_out.max_detail_items ≤ 50)) ∧
    c1_default_out.max_items_per_keyword = 50 ∧
    c1_default_out.max_pages = 3 ∧
    c1_default_out.max_detail_items = 5 := by
  have h := c1_input_normalization {} c1_default_out rfl
  exact ⟨h.1, h.2.1 rfl, h.2.2.1 rfl, h.2.2.2.1 rfl⟩

/-! ## Claim C2 — crawl-state invariants -/

/-- Parameters for the 7+7-cards scenario: item budget 10. -/
def c2_params : ScrapeParams :=
  { keyword := "phone case", country := "US", max_items := 10, max_pages := 3 }

/-- Two pages offering 7 qualifying cards each. -/
def c2_env : List PageSpec :=
  [resultsPage (List.replicate 7 (sampleCard "B00A")) (.withHref "/s?k=x&page=2"),
   resultsPage (List.replicate 7 (sampleCard "B00B")) .absent]

/-- Parameters for the pagination scenario: page budget 2, ample items. -/
def c2_nav_params : ScrapeParams :=
  { keyword := "phone case", country := "US", max_items := 100, max_pages := 2 }

/-- Three pages available, each with cards and a next link. -/
def c2_nav_env : List PageSpec :=
  [resultsPage (List.replicate 2 (sampleCard "B00A")) (.withHref "/p2"),
   resultsPage (List.replicate 2 (sampleCard "B00B")) (.withHref "/p3"),
   resultsPage (List.replicate 2 (sampleCard "B00C")) (.withHref "/p4")]

/-- C2: for every keyword crawl the CrawlState invariants hold — the number
of records emitted never exceeds `max_items`, no more than `max_pages` pages
are opened and navigated, and every emitted record is pushed with a
`pageIndex` within `max_pages`; in particular with `max_items = 10` and two
pages of 7 qualifying cards exactly 10 records are emitted, and with
`max_pages = 2` exactly 2 page navigations are issued even though more pages
are available. -/
theorem c2_crawl_invariants :
    (∀ (p : ScrapeParams) (env : List PageSpec),
      (_scrape_keyword p env).emitted.length ≤ p.max_items ∧
      (_scrape_keyword p env).navCount ≤ p.max_pages ∧
      ∀ e ∈ (_scrape_keyword p env).emitted, e.pageIndex ≤ p.max_pages) ∧
    (_scrape_keyword c2_params c2_env).emitted.length = 10 ∧
    (_scrape_keyword c2_nav_params c2_nav_env).navCount = 2 := by
  refine ⟨fun p env => ⟨?_, ?_, ?_⟩, by decide, by decide⟩
  · simpa using scrapeLoop_emitted_le p env 0 1
  · have := scrapeLoop_nav_le p env 0 1
    show (scrapeLoop p env 0 1).navCount ≤ p.max_pages
    omega
  · intro e he
    exact (scrapeLoop_pageIndex_le p env 0 1 e he).2

/-- Witness for C2: the invariants instantiated on the 7+7 scenario. -/
theorem c2_crawl_invariants_witness :
    (_scrape_keyword c2_params c2_env).emitted.length ≤ c2_params.max_items ∧
    (_scrape_keyword c2_params c2_env).navCount ≤ c2_params.max_pages :=
  ⟨(c2_crawl_invariants.1 c2_params c2_env).1,
   (c2_crawl_invariants.1 c2_params c2_env).2.1⟩

/-! ## Claim C3 — detail-enrichment ceiling -/

/-- The detail outcome paired with each extracted record is its card's. -/
theorem extract_detail_from_card (cards : List Card) (b : String) (mr : Option Rat)
    (mv : Option Int) (es : Bool) :
    ∀ pr ∈ _extract_product_cards cards b mr mv es, ∃ c ∈ cards, pr.2 = c.detail := by
  intro pr hpr
  unfold _extract_product_cards at hpr
  simp only [List.mem_filterMap] at hpr
  obtain ⟨c, hc, hcc⟩ := hpr
  split at hcc
  · exact absurd hcc (by simp)
  · simp only [Option.map_eq_some'] at hcc
    obtain ⟨r, -, hrr⟩ := hcc
    exact ⟨c, hc, by rw [← hrr]⟩

/-- A record counted as unenriched carries no feature bullets. -/
theorem isEnriched_false_no_bullets {r : ProductRecord} (h : isEnriched r = false) :
    r.featureBullets = none := by
  unfold isEnriched at h
  cases hfb : r.featureBullets with
  | none => rfl
  | some v => rw [hfb] at h; simp at h

/-- Parameters with `fetch_details` and a detail ceiling of 2. -/
def c3_params : ScrapeParams :=
  { keyword := "kw", country := "US", max_items := 50, max_pages := 3,
    fetch_details := true, max_detail_items := 2 }

/-- One page with 5 qualifying records, every detail visit completing. -/
def c3_env : List PageSpec :=
  [resultsPage (List.replicate 5 (detailCard "B00A")) .absent]

/-- Two pages with 3 qualifying records each, every detail visit
completing. -/
def c3_ce_env : List PageSpec :=
  [resultsPage (List.replicate 3 (detailCard "B00A")) (.withHref "/p2"),
   resultsPage (List.replicate 3 (detailCard "B00B")) .absent]

/-- A well-formed card whose detail visit raises after the category path has
been attached (line 439) and before the count increment (line 453). -/
def partialFailCard (a : String) : Card :=
  { sampleCard a with detail := .failAfterCategory [some "Electronics"] }

/-- One page with 5 qualifying records whose detail visits all fail
mid-enrichment. -/
def c3_pf_env : List PageSpec :=
  [resultsPage (List.replicate 5 (partialFailCard "B00C")) .absent]

/-- C3 (amended): the `detail_count` ceiling bounds *completed* detail
visits and is re-initialized for every page (line 415).  Per page: when
every detail visit either completes or fails before attaching anything, at
most `max_detail_items` of that page's records end up enriched; and — with
no proviso at all — at most `max_detail_items` of a page's records ever
carry feature bullets, since bullets are only attached by a completed visit.
With `maxDetailItems = 2` and 5 qualifying records on one page whose visits
complete, exactly the first 2 carry enrichment fields and the other 3 are
emitted unenriched.  The ceiling is *not* a bound on enriched records per
keyword, nor even per page in full generality: a visit that raises between
the category-path attachment and the count increment enriches a record
without consuming the ceiling (see the counterexample). -/
theorem c3_detail_ceiling :
    (∀ (m : Nat) (cards : List Card) (b : String) (mr : Option Rat)
      (mv : Option Int) (es : Bool),
      (∀ c ∈ cards, c.detail.isPartialFail = false) →
      ((enrichItems m 0 (_extract_product_cards cards b mr mv es)).countP
        fun r => isEnriched r) ≤ m) ∧
    (∀ (m : Nat) (cards : List Card) (b : String) (mr : Option Rat)
      (mv : Option Int) (es : Bool),
      ((enrichItems m 0 (_extract_product_cards cards b mr mv es)).countP
        fun r => r.featureBullets.isSome) ≤ m) ∧
    ((_scrape_keyword c3_params c3_env).emitted.map fun e => isEnriched e.record) =
      [true, true, false, false, false] := by
  refine ⟨?_, ?_, by decide⟩
  · intro m cards b mr mv es hnp
    have hpairs : ∀ pr ∈ _extract_product_cards cards b mr mv es,
        pr.2.isPartialFail = false := by
      intro pr hpr
      obtain ⟨c, hc, hdet⟩ := extract_detail_from_card cards b mr mv es pr hpr
      rw [hdet]
      exact hnp c hc
    simpa using enrich_countP_le m (_extract_product_cards cards b mr mv es) 0
      (extract_unenriched cards b mr mv es) hpairs
  · intro m cards b mr mv es
    have hnb : ∀ pr ∈ _extract_product_cards cards b mr mv es,
        pr.1.featureBullets = none := fun pr hpr =>
      isEnriched_false_no_bullets (extract_unenriched cards b mr mv es pr hpr)
    simpa using enrich_bullets_countP_le m (_extract_product_cards cards b mr mv es) 0 hnb

/-- C3 counterexample, refuting the claimed per-keyword ceiling twice over:
with `max_detail_items = 2`, two pages of 3 qualifying records (all visits
completing) leave 4 records of the keyword's crawl enriched — the running
count does not span the keyword — and a single page of 5 records whose
visits all raise between the category-path attachment and the count
increment leaves all 5 enriched, because that path never advances the
count. -/
theorem c3_counterexample :
    c3_params.max_detail_items = 2 ∧
    ((_scrape_keyword c3_params c3_ce_env).emitted.countP
      fun e => isEnriched e.record) = 4 ∧
    ((_scrape_keyword c3_params c3_pf_env).emitted.countP
      fun e => isEnriched e.record) = 5 :=
  ⟨rfl, by decide, by decide⟩

/-- Witness for C3: the conditional ceiling applied to the one-page
all-completing scenario. -/
theorem c3_detail_ceiling_witness :
    ((enrichItems 2 0 (_extract_product_cards (List.replicate 5 (detailCard "B00A"))
      (mkBaseUrl "US") none none false)).countP fun r => isEnriched r) ≤ 2 :=
  c3_detail_ceiling.1 2 (List.replicate 5 (detailCard "B00A")) (mkBaseUrl "US")
    none none false (by decide)

/-! ## Claim C4 — currency extraction -/

/-- C4 (amended): the currency of a (stripped) raw price text follows the
first-symbol / trailing-3-or-4-character-token rule exactly as specified —
but under that very rule the text `"92,14 €"` yields the *empty* currency,
not `"€"`: its trailing token `"€"` is 1 character long (lines 169–178). -/
theorem c4_currency_rule :
    (∀ s : String, pyStrip s = s → parseCurrency s = currency_rule_spec s) ∧
    parseCurrency "$92.14" = "$" ∧
    parseCurrency "92,14 €" = "" :=
  ⟨parseCurrency_eq_rule, by decide, by decide⟩

/-- C4 counterexample: the price text `"92,14 €"` produces an empty currency
field, not `"€"` as the claim's example states. -/
theorem c4_counterexample :
    parseCurrency "92,14 €" = "" ∧ ("" : String) ≠ "€" :=
  ⟨by decide, by decide⟩

/-- Witness for C4: the rule equivalence applied to the stripped text
`"$92.14"`. -/
theorem c4_currency_rule_witness :
    pyStrip "$92.14" = "$92.14" ∧ parseCurrency "$92.14" = currency_rule_spec "$92.14" :=
  ⟨by decide, c4_currency_rule.1 "$92.14" (by decide)⟩

/-! ## Claim C5 — price normalization -/

/-- C5: price normalization follows the specified comma/period rule — the
implementation equals the specification-side rule on every raw price text;
the three specified examples hold exactly; and the raw display text is
always retained in `priceText` with `price` the (possibly failed) parse of
it. -/
theorem c5_price_normalization :
    (∀ s : String, parsePriceValue s = price_rule_spec s) ∧
    parsePriceValue "$92.14" = some (mkRat 9214 100) ∧
    parsePriceValue "92,14 €" = some (mkRat 9214 100) ∧
    parsePriceValue "1,234.56" = some (mkRat 123456 100) ∧
    (∀ (c : Card) (b : String) (mr : Option Rat) (mv : Option Int) (es : Bool)
      (r : ProductRecord), _parse_single_card c b mr mv es = some r →
      r.priceText = firstText c.priceEls ∧ r.price = parsePriceValue r.priceText) := by
  refine ⟨parsePriceValue_eq_rule, by decide, by decide, by decide, ?_⟩
  intro c b mr mv es r h
  obtain ⟨asin, first, rest, href, -, -, -, -, -, -, -, hbuild⟩ := parse_single_card_inv h
  subst hbuild
  exact ⟨rfl, rfl⟩

/-- A card whose price display text parses to no number. -/
def c5_card : Card :=
  { dataAsin := some "B0C5", titlePrimary := [{ text := some "T", href := some "/dp/C5" }],
    priceEls := [{ text := some "treasure chest" }] }

/-- The record extracted from `c5_card`. -/
def c5_record : ProductRecord :=
  buildRecord c5_card (mkBaseUrl "US") "B0C5"
    { text := some "T", href := some "/dp/C5" } "/dp/C5"

/-- Witness for C5: on a card with an unparsable price text the produced
record retains the raw text while the price is its failed parse. -/
theorem c5_price_normalization_witness :
    c5_record.priceText = firstText c5_card.priceEls ∧
    c5_record.price = parsePriceValue c5_record.priceText :=
  c5_price_normalization.2.2.2.2 c5_card (mkBaseUrl "US") none none false c5_record
    (by decide)

/-! ## Claims C6/C7 — failure containment and captcha handling -/

/-- A page whose processing raises is handled as a bare `break`: nothing
pushed, total unchanged, no advance. -/
theorem pageStep_procExn (p : ScrapeParams) (pg : LoadedPage) (t pi : Nat)
    (h : pg.procExn = true) : pageStep p pg t pi = ([], t, false) := by
  unfold pageStep
  rw [if_pos h]

/-- A captcha page is handled as a bare `break`: nothing pushed, total
unchanged, no advance. -/
theorem pageStep_captcha (p : ScrapeParams) (pg : LoadedPage) (t pi : Nat)
    (h : isCaptchaPage pg.content = true) : pageStep p pg t pi = ([], t, false) := by
  unfold pageStep
  split
  · rfl
  · rfl

/-- The loop's outcome at a page that steps to a bare `break`: the loop
stops after this one navigation, and the `finally` close then decides
whether an exception escapes. -/
theorem scrapeLoop_break_eq (p : ScrapeParams) (pg : LoadedPage) (cf : Bool)
    (rest : List PageSpec) (t pi : Nat) (h : pageStep p pg t pi = ([], t, false)) :
    scrapeLoop p (.page (.loaded pg) cf :: rest) t pi =
      if t < p.max_items ∧ pi ≤ p.max_pages then ⟨[], 1, cf⟩ else ⟨[], 0, false⟩ := by
  rw [scrapeLoop.eq_def]
  dsimp only
  split
  · rw [h]
    cases cf <;> rfl
  · rfl

/-- C7: a rendered page whose content carries a bot-protection/CAPTCHA
marker ends the keyword's loop with zero records from that page: at most the
one navigation that loaded it, no exception when the page scope closes
cleanly, and an outcome that depends neither on the page's cards (none is
touched) nor on any further environment (no further navigation or
extraction). -/
theorem c7_captcha_terminates (p : ScrapeParams) (pg : LoadedPage) (cf : Bool)
    (t pi : Nat) (rest rest2 : List PageSpec) (cs : List Card)
    (h : isCaptchaPage pg.content = true) :
    (scrapeLoop p (.page (.loaded pg) cf :: rest) t pi).emitted = [] ∧
    (scrapeLoop p (.page (.loaded pg) cf :: rest) t pi).navCount ≤ 1 ∧
    (cf = false → (scrapeLoop p (.page (.loaded pg) cf :: rest) t pi).aborted = false) ∧
    scrapeLoop p (.page (.loaded pg) cf :: rest) t pi =
      scrapeLoop p (.page (.loaded { pg with cards := cs }) cf :: rest2) t pi := by
  have h2 : isCaptchaPage ({ pg with cards := cs } : LoadedPage).content = true := h
  rw [scrapeLoop_break_eq p pg cf rest t pi (pageStep_captcha p pg t pi h),
      scrapeLoop_break_eq p _ cf rest2 t pi (pageStep_captcha p _ t pi h2)]
  split <;> simp

/-- A rendered page carrying one of the CAPTCHA markers, with a card that
must never be parsed. -/
def c7_captcha_page : LoadedPage :=
  { content := "<html>Enter the characters you see below</html>",
    cards := [sampleCard "B00A"] }

/-- Witness for C7: the captcha page halts a concrete crawl with nothing
emitted, a single navigation and no exception. -/
theorem c7_captcha_terminates_witness :
    (scrapeLoop c2_params
      (.page (.loaded c7_captcha_page) false :: [resultsPage [sampleCard "B00B"] .absent])
      0 1).emitted = [] ∧
    (scrapeLoop c2_params
      (.page (.loaded c7_captcha_page) false :: [resultsPage [sampleCard "B00B"] .absent])
      0 1).navCount ≤ 1 ∧
    (scrapeLoop c2_params
      (.page (.loaded c7_captcha_page) false :: [resultsPage [sampleCard "B00B"] .absent])
      0 1).aborted = false := by
  have h := c7_captcha_terminates c2_params c7_captcha_page false 0 1
    [resultsPage [sampleCard "B00B"] .absent] [] [] (by decide)
  exact ⟨h.1, h.2.1, h.2.2.1 rfl⟩

/-- C6 (amended): an unexpected failure while processing a page is caught at
the per-page boundary, ending only the current keyword's crawl with no
exception escaping (given the page scope then closes cleanly); and as long
as no page-scope open or close failure occurs, every keyword in the sequence
is crawled — the run's output is the concatenation of each keyword's own
crawl output.  Failures in `context.new_page()` (line 345) and in the
`finally`-block `page.close()` (line 500) — both outside the reach of the
per-page `except` handler — are *not* contained: either aborts the remaining
keywords (see the counterexample). -/
theorem c6_keyword_isolation :
    (∀ (inp : AmazonSearchInput) (envOf : String → List PageSpec) (kws : List String),
      (∀ kw ∈ kws, ∀ ps ∈ envOf kw, scopeOk ps = true) →
      runKeywords inp envOf kws =
        kws.flatMap fun kw => (_scrape_keyword (paramsFor inp kw) (envOf kw)).emitted) ∧
    (∀ (p : ScrapeParams) (pg : LoadedPage) (rest : List PageSpec) (t pi : Nat),
      pg.procExn = true →
      (scrapeLoop p (.page (.loaded pg) false :: rest) t pi).emitted = [] ∧
      (scrapeLoop p (.page (.loaded pg) false :: rest) t pi).aborted = false) := by
  constructor
  · intro inp envOf kws
    induction kws with
    | nil => intro _; rfl
    | cons kw rest ih =>
      intro hall
      have hab : (_scrape_keyword (paramsFor inp kw) (envOf kw)).aborted = false :=
        scrapeLoop_not_aborted (paramsFor inp kw) (envOf kw) 0 1
          (hall kw (List.mem_cons_self _ _))
      have hrest : ∀ k ∈ rest, ∀ ps ∈ envOf k, scopeOk ps = true := fun k hk =>
        hall k (List.mem_cons_of_mem _ hk)
      simp only [runKeywords, hab, Bool.false_eq_true, if_false, List.flatMap_cons,
        ih hrest]
  · intro p pg rest t pi h
    rw [scrapeLoop_break_eq p pg false rest t pi (pageStep_procExn p pg t pi h)]
    split <;> simp

/-- A two-keyword input. -/
def c6_input : AmazonSearchInput :=
  { keywords := ["k1", "k2"], max_items_per_keyword := 50, max_pages := 3,
    country := "US", min_rating := none, min_reviews := none,
    exclude_sponsored := false, fetch_details := false, max_detail_items := 5 }

/-- Keyword `k1` hits a page-scope-open failure; keyword `k2` would yield a
record. -/
def c6_envOf : String → List PageSpec := fun kw =>
  if kw = "k1" then [PageSpec.openFail]
  else [resultsPage [sampleCard "B00Z"] .absent]

/-- Keyword `k1` has a healthy page whose scope fails to *close* (the
`finally` at line 500 raises); keyword `k2` would yield a record. -/
def c6_close_envOf : String → List PageSpec := fun kw =>
  if kw = "k1" then
    [.page (.loaded { content := "<html>results</html>",
                      cards := [sampleCard "B00Y"], next := .absent }) true]
  else [resultsPage [sampleCard "B00Z"] .absent]

/-- C6 counterexample: a `context.new_page()` failure in keyword `k1`'s
crawl aborts the whole run with nothing emitted, and a `page.close()`
failure in `k1`'s `finally` likewise aborts it right after `k1`'s records
were pushed — in both runs keyword `k2` is never crawled even though, run on
its own, it emits a record. -/
theorem c6_counterexample :
    runMain c6_input c6_envOf = [] ∧
    ((runMain c6_input c6_close_envOf).map fun e => e.keyword) = ["k1"] ∧
    (_scrape_keyword (paramsFor c6_input "k2") (c6_envOf "k2")).emitted ≠ [] :=
  ⟨by decide, by decide, by decide⟩

/-- An environment with a good page for every keyword. -/
def c6_good_envOf : String → List PageSpec := fun _ =>
  [resultsPage [sampleCard "B00Z"] .absent]

/-- Witness for C6: both parts applied to concrete inputs. -/
theorem c6_keyword_isolation_witness :
    runKeywords c6_input c6_good_envOf ["k1", "k2"] =
      ["k1", "k2"].flatMap
        (fun kw => (_scrape_keyword (paramsFor c6_input kw) (c6_good_envOf kw)).emitted) ∧
    (scrapeLoop c2_params (.page (.loaded { procExn := true }) false :: []) 0 1).emitted = [] := by
  have h1 := c6_keyword_isolation.1 c6_input c6_good_envOf ["k1", "k2"] (by decide)
  have h2 := c6_keyword_isolation.2 c2_params { procExn := true } [] 0 1 rfl
  exact ⟨h1, h2.1⟩

/-! ## Claim C8 — card extraction is full-record-or-discard -/

/-- C8: the card parser never yields a partial record — a raised exception
anywhere in the card's extraction is caught and becomes a discard; a card
without an ASIN attribute (absent or empty) is discarded regardless of its
other fields; a card without a title link under either selector is
discarded; and every produced record carries the card's own non-empty
ASIN. -/
theorem c8_card_discard_boundary :
    (∀ (c : Card) (b : String) (mr : Option Rat) (mv : Option Int) (es : Bool),
      c.flaky = true → _parse_single_card c b mr mv es = none) ∧
    (∀ (c : Card) (b : String) (mr : Option Rat) (mv : Option Int) (es : Bool),
      c.dataAsin = none ∨ c.dataAsin = some "" → _parse_single_card c b mr mv es = none) ∧
    (∀ (c : Card) (b : String) (mr : Option Rat) (mv : Option Int) (es : Bool),
      c.titlePrimary = [] → c.titleFallback = [] → _parse_single_card c b mr mv es = none) ∧
    (∀ (c : Card) (b : String) (mr : Option Rat) (mv : Option Int) (es : Bool)
      (r : ProductRecord), _parse_single_card c b mr mv es = some r →
      c.dataAsin = some r.asin ∧ r.asin ≠ "") := by
  refine ⟨?_, ?_, ?_, ?_⟩
  · intro c b mr mv es h
    unfold _parse_single_card
    rw [if_pos h]
  · intro c b mr mv es h
    unfold _parse_single_card
    by_cases hf : c.flaky = true
    · rw [if_pos hf]
    · rw [if_neg hf]
      rcases h with h | h <;> (rw [h]; try rfl)
  · intro c b mr mv es h1 h2
    have ht : effTitleEls c = [] := by
      unfold effTitleEls
      rw [h1, h2]
      simp
    unfold _parse_single_card
    by_cases hf : c.flaky = true
    · rw [if_pos hf]
    · rw [if_neg hf]
      cases ha : c.dataAsin with
      | none => rfl
      | some a =>
        dsimp only
        by_cases ha0 : a = ""
        · rw [if_pos ha0]
        · rw [if_neg ha0, ht]
  · intro c b mr mv es r h
    obtain ⟨asin, first, rest, href, -, ha, ha0, -, -, -, -, hbuild⟩ :=
      parse_single_card_inv h
    subst hbuild
    exact ⟨ha, ha0⟩

/-- A card whose extraction raises. -/
def c8_flaky_card : Card := { sampleCard "B0C8" with flaky := true }

/-- A card without the ASIN attribute. -/
def c8_no_asin_card : Card := { sampleCard "B0C8" with dataAsin := none }

/-- A card with an ASIN but no title link under either selector. -/
def c8_no_title_card : Card := { dataAsin := some "B0C8" }

/-- The record extracted from the minimal well-formed card. -/
def c8_good_record : ProductRecord :=
  buildRecord (sampleCard "B0C8") "b" "B0C8"
    { text := some "Widget", href := some "/dp/X" } "/dp/X"

/-- Witness for C8: all four parts applied to concrete cards. -/
theorem c8_card_discard_boundary_witness :
    _parse_single_card c8_flaky_card "b" none none false = none ∧
    _parse_single_card c8_no_asin_card "b" none none false = none ∧
    _parse_single_card c8_no_title_card "b" none none false = none ∧
    ((sampleCard "B0C8").dataAsin = some c8_good_record.asin ∧ c8_good_record.asin ≠ "") :=
  ⟨c8_card_discard_boundary.1 c8_flaky_card "b" none none false rfl,
   c8_card_discard_boundary.2.1 c8_no_asin_card "b" none none false (Or.inl rfl),
   c8_card_discard_boundary.2.2.1 c8_no_title_card "b" none none false rfl rfl,
   c8_card_discard_boundary.2.2.2 (sampleCard "B0C8") "b" none none false c8_good_record
     (by decide)⟩

/-! ## Claim C9 — product URL construction -/

/-- Specification-side absoluteness predicate (the claim's "absolute
URL"). -/
def is_absolute_url_spec (s : String) : Bool :=
  py_startswith s "https://" || py_startswith s "http://"

/-- C9 (amended): every produced record's `productUrl` has the query string
truncated — it contains no `?` — and a link target beginning with `/` is
resolved against the marketplace base origin of the configured country;
a target *not* beginning with `/` is used as-is after query truncation, so
it is absolute only when the href itself was (see the counterexample). -/
theorem c9_product_url (country : String) (c : Card) (mr : Option Rat)
    (mv : Option Int) (es : Bool) (first : Elem) (rest : List Elem) (href : String)
    (r : ProductRecord) (ht : effTitleEls c = first :: rest)
    (hh : first.href = some href)
    (hr : _parse_single_card c (mkBaseUrl country) mr mv es = some r) :
    '?' ∉ r.productUrl.data ∧
    (py_startswith href "/" = true →
      r.productUrl = mkBaseUrl country ++ stripQuery href) ∧
    (py_startswith href "/" = false → r.productUrl = stripQuery href) := by
  obtain ⟨asin, first', rest', href', -, -, -, ht', hh', -, -, hbuild⟩ :=
    parse_single_card_inv hr
  rw [ht] at ht'
  injection ht' with hfst hrst
  subst hfst
  rw [hh] at hh'
  obtain rfl : href = href' := Option.some.inj hh'
  subst hbuild
  have hpu : (buildRecord c (mkBaseUrl country) asin first href).productUrl =
      if py_startswith href "/" = true then mkBaseUrl country ++ stripQuery href
      else stripQuery href := rfl
  refine ⟨?_, ?_, ?_⟩
  · rw [hpu]
    by_cases hsw : py_startswith href "/" = true
    · rw [if_pos hsw]
      intro hmem
      rw [String.data_append] at hmem
      rcases List.mem_append.mp hmem with hm | hm
      · exact not_mem_mkBaseUrl country hm
      · exact not_mem_stripQuery href hm
    · rw [if_neg hsw]
      exact not_mem_stripQuery href
  · intro hsw
    rw [hpu, if_pos hsw]
  · intro hsw
    rw [hpu, if_neg (by rw [hsw]; exact Bool.false_ne_true)]

/-- A card whose title link target is relative but does not begin with `/`. -/
def c9_card : Card :=
  { dataAsin := some "B0C9",
    titlePrimary := [{ text := some "T", href := some "foo?x=1" }] }

/-- C9 counterexample: the href `"foo?x=1"` yields `productUrl = "foo"` —
query-stripped but *not* resolved against the base origin and not an
absolute URL, refuting "productUrl is an absolute URL ... every relative
link target is resolved against the marketplace's base origin". -/
theorem c9_counterexample :
    Option.map ProductRecord.productUrl
      (_parse_single_card c9_card (mkBaseUrl "US") none none false) = some "foo" ∧
    is_absolute_url_spec "foo" = false :=
  ⟨by decide, by decide⟩

/-- A card with a root-relative, query-carrying title link. -/
def c9_rel_card : Card :=
  { dataAsin := some "B0W9",
    titlePrimary := [{ text := some "T", href := some "/dp/X?ref=1" }] }

/-- The record extracted from `c9_rel_card` against the US marketplace. -/
def c9_rel_record : ProductRecord :=
  buildRecord c9_rel_card (mkBaseUrl "US") "B0W9"
    { text := some "T", href := some "/dp/X?ref=1" } "/dp/X?ref=1"

/-- Witness for C9: the amended theorem applied to a concrete
root-relative href. -/
theorem c9_product_url_witness :
    '?' ∉ c9_rel_record.productUrl.data ∧
    c9_rel_record.productUrl = mkBaseUrl "US" ++ stripQuery "/dp/X?ref=1" := by
  have h := c9_product_url "US" c9_rel_card none none false
    { text := some "T", href := some "/dp/X?ref=1" } [] "/dp/X?ref=1" c9_rel_record
    rfl rfl (by decide)
  exact ⟨h.1, h.2.1 (by decide)⟩

/-! ## Claim C10 — empty title text does not discard -/

/-- C10: a card whose title link element exists and carries a non-empty href
produces a record even when the link's text content is missing or empty —
assuming, of course, that none of the other discard conditions (no ASIN, a
raised exception, a failed filter) fires; the produced record then has the
empty title. -/
theorem c10_empty_title_still_produced (c : Card) (b : String) (mr : Option Rat)
    (mv : Option Int) (es : Bool) (asin : String) (first : Elem) (rest : List Elem)
    (href : String) (hf : c.flaky = false) (ha : c.dataAsin = some asin)
    (ha0 : asin ≠ "") (ht : effTitleEls c = first :: rest)
    (hh : first.href = some href) (hh0 : href ≠ "")
    (hfo : filteredOut c mr mv es = false) :
    _parse_single_card c b mr mv es = some (buildRecord c b asin first href) ∧
    (first.text = none ∨ first.text = some "" →
      (buildRecord c b asin first href).title = "") := by
  constructor
  · unfold _parse_single_card
    rw [hf]
    simp only [Bool.false_eq_true, if_false]
    rw [ha]
    dsimp only
    rw [if_neg ha0, ht]
    dsimp only
    rw [hh]
    dsimp only
    rw [if_neg hh0, hfo]
    simp
  · intro htext
    have : (buildRecord c b asin first href).title = pyStrip (first.text.getD "") := rfl
    rw [this]
    rcases htext with h | h <;> rw [h] <;> rfl

/-- A card whose title link has a href but no text content. -/
def c10_card : Card :=
  { dataAsin := some "B010", titlePrimary := [{ text := none, href := some "/dp/B010" }] }

/-- Witness for C10: the empty-titled record is produced from a concrete
card with a textless title link. -/
theorem c10_empty_title_still_produced_witness :
    _parse_single_card c10_card "b" none none false =
      some (buildRecord c10_card "b" "B010"
        { text := none, href := some "/dp/B010" } "/dp/B010") ∧
    (buildRecord c10_card "b" "B010"
      { text := none, href := some "/dp/B010" } "/dp/B010").title = "" := by
  have h := c10_empty_title_still_produced c10_card "b" none none false "B010"
    { text := none, href := some "/dp/B010" } [] "/dp/B010" rfl rfl (by decide) rfl rfl
    (by decide) (by decide)
  exact ⟨h.1, h.2 (Or.inl rfl)⟩
